import Mathlib

/-
Verification of the port_ocean entities-state applier
(src/port_ocean/core/handlers/entities_state_applier/port/applier.py)
and the Kafka ingestion loop (src/port_ocean/consumers/kafka_consumer.py)
against the natural-language specification.

The applier's external collaborators (the Port HTTP client, the dependency
orderers and the related-entities lookup) are not part of the given sources;
they appear here as parameters of an environment record, so that every
theorem quantifies over their behaviour.  Remote interaction is modelled as
a trace of calls.
-/

namespace Ocean

/-- Modelled from the spec: EntityRef is the lightweight
(identifier, blueprint) projection of an Entity (the model class
port_ocean.core.models.EntityRef is not among the given sources). -/
structure EntityRef where
  identifier : String
  blueprint : String
deriving DecidableEq

/-- Modelled from the spec: an Entity carries an identifier, a blueprint,
relations, opaque properties and the usesSearchIdentifier flag (the model
class port_ocean.core.models.Entity is not among the given sources). -/
structure Entity where
  identifier : String
  blueprint : String
  relations : List (String × List String)
  properties : List (String × String)
  is_using_search_identifier : Bool
deriving DecidableEq

/-- Modelled from the spec: identity of two refs is equality of the
(identifier, blueprint) key (port_ocean.core.utils.is_same_entity is not
among the given sources; the spec defines equality for diff purposes as
identity-key equality only). -/
def EntityRef.is_same_entity (first second : EntityRef) : Bool :=
  first.identifier == second.identifier && first.blueprint == second.blueprint

/-- Modelled from the spec: identity-key equality on full entities. -/
def Entity.is_same_entity (first second : Entity) : Bool :=
  first.identifier == second.identifier && first.blueprint == second.blueprint

/-- The identity projection of an Entity. -/
def EntityRef.from_entity (e : Entity) : EntityRef :=
  { identifier := e.identifier, blueprint := e.blueprint }

/-- Classified diff buckets, as in port_ocean.core.utils. -/
structure PortDiff (α : Type) where
  created : List α
  modified : List α
  deleted : List α
deriving DecidableEq

/-- Modelled from the spec: get_port_diff classifies created = items of
after whose key is absent from before, modified = items of after whose key
is present in before, deleted = items of before whose key is absent from
after; each bucket follows the input order of its source collection
(port_ocean.core.utils.get_port_diff is not among the given sources). -/
def get_port_diff (before after : List Entity) : PortDiff Entity :=
  { created := after.filter (fun e => !(before.any (fun b => Entity.is_same_entity b e)))
    modified := after.filter (fun e => before.any (fun b => Entity.is_same_entity b e))
    deleted := before.filter (fun e => !(after.any (fun a => Entity.is_same_entity a e))) }

/-- Modelled from the spec: the same classification on refs
(port_ocean.core.utils.get_port_ref_diff is not among the given sources). -/
def get_port_ref_diff (before after : List EntityRef) : PortDiff EntityRef :=
  { created := after.filter (fun e => !(before.any (fun b => EntityRef.is_same_entity b e)))
    modified := after.filter (fun e => before.any (fun b => EntityRef.is_same_entity b e))
    deleted := before.filter (fun e => !(after.any (fun a => EntityRef.is_same_entity a e))) }

/-- One remote-store call issued by the applier, with its should_raise flag
(the relatedLookup query carries no such flag). -/
inductive RemoteCall where
  | upsertOne (entity : Entity) (should_raise : Bool)
  | batchUpsert (entities : List Entity) (should_raise : Bool)
  | deleteOne (ref : EntityRef) (should_raise : Bool)
  | batchDelete (refs : List EntityRef) (should_raise : Bool)
  | relatedLookup (protect : List EntityRef)
deriving DecidableEq

/-- The two configuration flags read from event.port_app_config. -/
structure PortAppConfig where
  create_missing_related_entities : Bool
  delete_dependent_entities : Bool
deriving DecidableEq

/-- The applier's execution environment: the configuration plus the
behaviour of the external collaborators that are not among the given
sources (port client responses, the dependency orderers, the
related-entities lookup).  Theorems quantify over all of these. -/
structure ApplierEnv where
  config : PortAppConfig
  upsert_entity_result : Entity → Option Entity
  batch_upsert_result : List Entity → List Entity
  related_entities_refs : List EntityRef → List EntityRef
  order_by_entities_dependencies : List Entity → List Entity
  order_by_entities_ref_dependencies : List EntityRef → List EntityRef

/-- The sequential per-entity write loop of HttpEntitiesStateApplier.upsert:
one upsert_entity call per entity in order, should_raise=False, collecting
the truthy results in call order. -/
def upsert_loop (env : ApplierEnv) : List Entity → List RemoteCall × List Entity
  | [] => ([], [])
  | entity :: rest =>
    let upsertedEntity := env.upsert_entity_result entity
    let r := upsert_loop env rest
    (RemoteCall.upsertOne entity false :: r.1,
      match upsertedEntity with
      | some e => e :: r.2
      | none => r.2)

/-- HttpEntitiesStateApplier.upsert: batch-delegated when
create_missing_related_entities is enabled, otherwise partition by the
search-identifier flag, order the rest, reverse the concatenation and
write one entity at a time.  Returns the call trace and the entities
reported written. -/
def upsert (env : ApplierEnv) (entities : List Entity) :
    List RemoteCall × List Entity :=
  if env.config.create_missing_related_entities then
    ([RemoteCall.batchUpsert entities false], env.batch_upsert_result entities)
  else
    let entities_with_search_identifier :=
      entities.filter (fun e => e.is_using_search_identifier)
    let entities_without_search_identifier :=
      entities.filter (fun e => !e.is_using_search_identifier)
    let ordered_created_entities :=
      (entities_with_search_identifier ++
        env.order_by_entities_dependencies entities_without_search_identifier).reverse
    upsert_loop env ordered_created_entities

/-- HttpEntitiesStateApplier.delete: one batched call when
delete_dependent_entities is enabled, otherwise one call per ordered ref. -/
def delete (env : ApplierEnv) (entities_refs : List EntityRef) :
    List RemoteCall :=
  if env.config.delete_dependent_entities then
    [RemoteCall.batchDelete entities_refs false]
  else
    (env.order_by_entities_ref_dependencies entities_refs).map
      (fun entity_ref => RemoteCall.deleteOne entity_ref false)

/-- The per-candidate decision of HttpEntitiesStateApplier._safe_delete:
a related candidate survives only the create_missing_related_entities
policy check; an unrelated candidate survives only the protect-set check. -/
def allowed_to_delete (create_missing_related_entities : Bool)
    (related_entities_refs entities_to_protect : List EntityRef)
    (entity_to_delete : EntityRef) : Bool :=
  let is_part_of_related :=
    related_entities_refs.any (fun entity => entity.is_same_entity entity_to_delete)
  let is_part_of_created :=
    entities_to_protect.any (fun entity => entity.is_same_entity entity_to_delete)
  if is_part_of_related then !create_missing_related_entities
  else !is_part_of_created

/-- HttpEntitiesStateApplier._safe_delete: early return on an empty
candidate list, otherwise one related-entities lookup on the protect set,
filtering of the candidates, and a delete of the survivors. -/
def safe_delete (env : ApplierEnv)
    (entities_to_delete entities_to_protect : List EntityRef) :
    List RemoteCall :=
  if entities_to_delete.isEmpty then []
  else
    let related := env.related_entities_refs entities_to_protect
    let allowed_entities_to_delete :=
      entities_to_delete.filter
        (allowed_to_delete env.config.create_missing_related_entities
          related entities_to_protect)
    RemoteCall.relatedLookup entities_to_protect ::
      delete env allowed_entities_to_delete

/-- HttpEntitiesStateApplier.apply_diff: diff, upsert created+modified,
then safe-delete the deleted refs protected by the refs of the entities
the upsert reported written. -/
def apply_diff (env : ApplierEnv) (before after : List Entity) :
    List RemoteCall :=
  let diff := get_port_diff before after
  let kept_entities := diff.created ++ diff.modified
  let r := upsert env kept_entities
  let modified_entities_refs := r.2.map EntityRef.from_entity
  let deleted_refs := diff.deleted.map EntityRef.from_entity
  r.1 ++ safe_delete env deleted_refs modified_entities_refs

/-- HttpEntitiesStateApplier.delete_diff: diff on refs, no-op when nothing
was deleted, otherwise safe-delete the deleted refs protected by
created + modified. -/
def delete_diff (env : ApplierEnv) (before after : List EntityRef) :
    List RemoteCall :=
  let diff := get_port_ref_diff before after
  if diff.deleted.isEmpty then []
  else
    let kept_entities := diff.created ++ diff.modified
    safe_delete env diff.deleted kept_entities

/-- A call is fault tolerant when its should_raise flag is off; the
related-entities lookup carries no flag. -/
def fault_tolerant : RemoteCall → Bool
  | RemoteCall.upsertOne _ should_raise => !should_raise
  | RemoteCall.batchUpsert _ should_raise => !should_raise
  | RemoteCall.deleteOne _ should_raise => !should_raise
  | RemoteCall.batchDelete _ should_raise => !should_raise
  | RemoteCall.relatedLookup _ => true

/-- The search-identifier flags of the per-entity write calls of a trace,
in call order. -/
def calls_search_flags (calls : List RemoteCall) : List Bool :=
  calls.filterMap (fun c =>
    match c with
    | RemoteCall.upsertOne e _ => some e.is_using_search_identifier
    | _ => none)

/-- A flag list where every true precedes every false: the write calls for
search-identifier entities all come ahead of the rest. -/
def search_flags_lead : List Bool → Bool
  | [] => true
  | true :: rest => search_flags_lead rest
  | false :: rest => rest.all (fun b => !b)

/-- The deletion-guard decision as the spec words it, for comparison with
allowed_to_delete: delete iff the candidate is not in keep and (it is not
related to keep or the auto-create-missing policy is disabled). -/
def spec_allowed_to_delete (create_missing_related_entities : Bool)
    (related_entities_refs entities_to_protect : List EntityRef)
    (entity_to_delete : EntityRef) : Bool :=
  !(entities_to_protect.any (fun entity => entity.is_same_entity entity_to_delete)) &&
    (!(related_entities_refs.any (fun entity => entity.is_same_entity entity_to_delete)) ||
      !create_missing_related_entities)

/-- A concrete ref used by witnesses and counterexamples. -/
def refX : EntityRef := { identifier := "X", blueprint := "service" }

/-- A concrete entity flagged as using a search identifier. -/
def entS : Entity :=
  { identifier := "S", blueprint := "service", relations := [], properties := []
    is_using_search_identifier := true }

/-- A concrete entity not using a search identifier. -/
def entN : Entity :=
  { identifier := "N", blueprint := "service", relations := [], properties := []
    is_using_search_identifier := false }

/-- A concrete environment with both flags disabled, identity orderers, an
empty related lookup and always-successful single upserts. -/
def envSeq : ApplierEnv :=
  { config := { create_missing_related_entities := false
                delete_dependent_entities := false }
    upsert_entity_result := fun e => some e
    batch_upsert_result := fun es => es
    related_entities_refs := fun _ => []
    order_by_entities_dependencies := fun es => es
    order_by_entities_ref_dependencies := fun rs => rs }

/-- A concrete environment whose related-entities lookup always reports
refX, with the auto-create policy disabled. -/
def envRelated : ApplierEnv :=
  { config := { create_missing_related_entities := false
                delete_dependent_entities := false }
    upsert_entity_result := fun e => some e
    batch_upsert_result := fun es => es
    related_entities_refs := fun _ => [refX]
    order_by_entities_dependencies := fun es => es
    order_by_entities_ref_dependencies := fun rs => rs }

/-- A concrete environment with both flags enabled. -/
def envBatch : ApplierEnv :=
  { config := { create_missing_related_entities := true
                delete_dependent_entities := true }
    upsert_entity_result := fun e => some e
    batch_upsert_result := fun es => es
    related_entities_refs := fun _ => []
    order_by_entities_dependencies := fun es => es
    order_by_entities_ref_dependencies := fun rs => rs }

end Ocean

namespace Ocean

/-- One observable scheduler event of the Kafka poll loop: a termination
signal before the next iteration, or one poll outcome (no message, an
errored message, or a message whose processing succeeds or fails). -/
inductive KafkaEvent where
  | signal
  | pollNone
  | pollErr
  | pollMsg (m : Nat) (ok : Bool)
deriving DecidableEq

/-- One observable action of KafkaConsumer.start. -/
inductive KafkaAction where
  | poll
  | processAttempt (m : Nat) (ok : Bool)
  | commit
  | closeConsumer
deriving DecidableEq

/-- KafkaConsumer.start driven by a finite event schedule.  A message poll
yields a processing attempt (KafkaConsumer._handle_message, which logs a
failure instead of raising) followed by the finally-block commit; an
errored poll raises KafkaException, caught and logged by the iteration
handler with no commit; a termination signal runs exit_gracefully (which
closes the consumer and clears the running flag) so the while loop exits
and its finally block closes the consumer again; an exhausted schedule
stands for the loop stopping, reaching the same finally block. -/
def kafka_run : List KafkaEvent → List KafkaAction
  | [] => [KafkaAction.closeConsumer]
  | KafkaEvent.signal :: _ =>
      [KafkaAction.closeConsumer, KafkaAction.closeConsumer]
  | KafkaEvent.pollNone :: rest => KafkaAction.poll :: kafka_run rest
  | KafkaEvent.pollErr :: rest => KafkaAction.poll :: kafka_run rest
  | KafkaEvent.pollMsg m ok :: rest =>
      KafkaAction.poll :: KafkaAction.processAttempt m ok ::
        KafkaAction.commit :: kafka_run rest

/-- The write-call trace of the sequential loop is one upsertOne call per
entity, in order. -/
theorem upsert_loop_calls (env : ApplierEnv) (l : List Entity) :
    (upsert_loop env l).1 = l.map (fun e => RemoteCall.upsertOne e false) := by
  induction l with
  | nil => rfl
  | cons e rest ih => simp [upsert_loop, ih]

/-- The entities returned by the sequential loop are the successful
responses, in call order. -/
theorem upsert_loop_results (env : ApplierEnv) (l : List Entity) :
    (upsert_loop env l).2 = l.filterMap env.upsert_entity_result := by
  induction l with
  | nil => rfl
  | cons e rest ih =>
    cases h : env.upsert_entity_result e <;>
      simp [upsert_loop, h, ih, List.filterMap_cons]

/-- Claim C10: on an empty candidate list, _safe_delete issues no remote
call at all — the related-entities lookup on the protect set is skipped,
not just the delete. -/
theorem claim_c10_empty_candidates_no_calls (env : ApplierEnv)
    (entities_to_protect : List EntityRef) :
    safe_delete env [] entities_to_protect = [] := rfl

/-- Claim C8: the deletable refs the guard hands to delete are the
candidates surviving a filter, hence a subsequence of the candidate list
preserving its relative order; the trace shows exactly that list being
deleted. -/
theorem claim_c8_guard_preserves_order (env : ApplierEnv)
    (entities_to_delete entities_to_protect : List EntityRef) :
    (entities_to_delete.filter
      (allowed_to_delete env.config.create_missing_related_entities
        (env.related_entities_refs entities_to_protect) entities_to_protect)).Sublist
      entities_to_delete ∧
    safe_delete env entities_to_delete entities_to_protect =
      (if entities_to_delete.isEmpty then []
       else RemoteCall.relatedLookup entities_to_protect ::
         delete env (entities_to_delete.filter
           (allowed_to_delete env.config.create_missing_related_entities
             (env.related_entities_refs entities_to_protect) entities_to_protect))) :=
  ⟨List.filter_sublist _, rfl⟩

/-- Claim C1 counterexample: with the policy disabled, a candidate that is
both in the protect set and reported by the related lookup is passed to
delete by the code, while the spec's rule (delete iff not in keep and (not
related or policy disabled)) forbids deleting a keep member. -/
theorem claim_c1_counterexample :
    allowed_to_delete false [refX] [refX] refX = true ∧
    spec_allowed_to_delete false [refX] [refX] refX = false ∧
    safe_delete envRelated [refX] [refX] =
      [RemoteCall.relatedLookup [refX], RemoteCall.deleteOne refX false] := by
  refine ⟨by decide, by decide, by decide⟩

/-- Claim C1 (amended): the guard passes a candidate to delete iff it is
related to keep and the policy is disabled, or it is not related and not in
keep; the in-keep protection applies only to candidates the related lookup
does not report. -/
theorem claim_c1_guard_decision (create_missing_related_entities : Bool)
    (related_entities_refs entities_to_protect : List EntityRef)
    (entity_to_delete : EntityRef) :
    allowed_to_delete create_missing_related_entities
        related_entities_refs entities_to_protect entity_to_delete =
      ((related_entities_refs.any
          (fun entity => entity.is_same_entity entity_to_delete)) &&
          !create_missing_related_entities ||
        !(related_entities_refs.any
          (fun entity => entity.is_same_entity entity_to_delete)) &&
          !(entities_to_protect.any
            (fun entity => entity.is_same_entity entity_to_delete))) := by
  unfold allowed_to_delete
  cases h : related_entities_refs.any
      (fun entity => entity.is_same_entity entity_to_delete) <;> simp [h]

/-- Claim C3: apply_diff upserts exactly the diff's created followed by
modified entities, and the protect set handed to the deletion guard is
exactly the refs of the entities the upsert reported written; with the
batch mode off, every protect-set member is the ref of a successful
single-upsert response, so failed upserts contribute nothing to it. -/
theorem claim_c3_apply_diff (env : ApplierEnv) (before after : List Entity) :
    apply_diff env before after =
      (upsert env ((get_port_diff before after).created ++
        (get_port_diff before after).modified)).1 ++
        safe_delete env
          ((get_port_diff before after).deleted.map EntityRef.from_entity)
          ((upsert env ((get_port_diff before after).created ++
            (get_port_diff before after).modified)).2.map EntityRef.from_entity) ∧
    (env.config.create_missing_related_entities = false →
      ∀ r ∈ (upsert env ((get_port_diff before after).created ++
          (get_port_diff before after).modified)).2.map EntityRef.from_entity,
        ∃ e e₀, env.upsert_entity_result e₀ = some e ∧
          r = EntityRef.from_entity e) := by
  refine ⟨rfl, fun h r hr => ?_⟩
  rw [upsert, if_neg (by simp [h]), upsert_loop_results] at hr
  simp only [List.mem_map, List.mem_filterMap] at hr
  obtain ⟨e, ⟨e₀, _, he⟩, rfl⟩ := hr
  exact ⟨e, e₀, he, rfl⟩

/-- Claim C3 witness: a concrete protect-set member is the ref of a
successful single-upsert response. -/
theorem claim_c3_witness :
    ∃ e e₀, envSeq.upsert_entity_result e₀ = some e ∧
      EntityRef.from_entity entN = EntityRef.from_entity e :=
  (claim_c3_apply_diff envSeq [] [entN]).2 rfl
    (EntityRef.from_entity entN) (by decide)

/-- Claim C4: with cascadeDeleteDependents enabled, delete issues one
batched call carrying all refs; otherwise it maps one fault-tolerant call
over the ordered refs, and when the orderer permutes its input this is
exactly one call per input ref. -/
theorem claim_c4_delete (env : ApplierEnv) (entities_refs : List EntityRef) :
    (env.config.delete_dependent_entities = true →
      delete env entities_refs = [RemoteCall.batchDelete entities_refs false]) ∧
    (env.config.delete_dependent_entities = false →
      delete env entities_refs =
        (env.order_by_entities_ref_dependencies entities_refs).map
          (fun entity_ref => RemoteCall.deleteOne entity_ref false)) ∧
    (env.config.delete_dependent_entities = false →
      (env.order_by_entities_ref_dependencies entities_refs).Perm entities_refs →
      (delete env entities_refs).Perm
        (entities_refs.map (fun entity_ref => RemoteCall.deleteOne entity_ref false))) := by
  refine ⟨fun h => by simp [delete, h], fun h => by simp [delete, h], fun h hp => ?_⟩
  rw [delete, if_neg (by simp [h])]
  exact hp.map _

/-- Claim C4 witness: both modes evaluated on a concrete ref list. -/
theorem claim_c4_witness :
    delete envBatch [refX] = [RemoteCall.batchDelete [refX] false] ∧
    (delete envSeq [refX]).Perm
      ([refX].map (fun entity_ref => RemoteCall.deleteOne entity_ref false)) :=
  ⟨(claim_c4_delete envBatch [refX]).1 rfl,
    (claim_c4_delete envSeq [refX]).2.2 rfl (List.Perm.refl _)⟩

/-- Claim C5: with autoCreateMissingRelated enabled, upsert issues exactly
one batched fault-tolerant write carrying all input entities and returns
exactly that call's result, with no local ordering. -/
theorem claim_c5_upsert_batch (env : ApplierEnv) (entities : List Entity)
    (h : env.config.create_missing_related_entities = true) :
    upsert env entities =
      ([RemoteCall.batchUpsert entities false], env.batch_upsert_result entities) := by
  simp [upsert, h]

/-- Claim C5 witness: the batch path evaluated on a concrete entity list. -/
theorem claim_c5_witness :
    upsert envBatch [entS, entN] =
      ([RemoteCall.batchUpsert [entS, entN] false],
        envBatch.batch_upsert_result [entS, entN]) :=
  claim_c5_upsert_batch envBatch [entS, entN] rfl

/-- Claim C7: when the ref diff has no deletions, delete_diff makes no
remote call at all; otherwise it hands exactly the diff's deleted refs as
candidates and created + modified as the protect set to the guard. -/
theorem claim_c7_delete_diff (env : ApplierEnv) (before after : List EntityRef) :
    ((get_port_ref_diff before after).deleted = [] →
      delete_diff env before after = []) ∧
    delete_diff env before after =
      safe_delete env (get_port_ref_diff before after).deleted
        ((get_port_ref_diff before after).created ++
          (get_port_ref_diff before after).modified) := by
  constructor
  · intro h
    simp [delete_diff, h]
  · by_cases h : (get_port_ref_diff before after).deleted.isEmpty <;>
      simp [delete_diff, safe_delete, h]

/-- Claim C7 witness: a before/after pair of identical refs yields no
deletions and an empty trace. -/
theorem claim_c7_witness : delete_diff envSeq [refX] [refX] = [] :=
  (claim_c7_delete_diff envSeq [refX] [refX]).1 (by decide)

/-- Claim C2 counterexample: with the batch mode off and an identity
orderer, the input [entS, entN] (a search-identifier entity followed by a
plain one) produces the call sequence entN then entS — the reversal puts
the search-identifier entity last, so search-identifier entities do not
lead the per-entity write calls. -/
theorem claim_c2_counterexample :
    envSeq.config.create_missing_related_entities = false ∧
    (upsert envSeq [entS, entN]).1 =
      [RemoteCall.upsertOne entN false, RemoteCall.upsertOne entS false] ∧
    search_flags_lead (calls_search_flags ((upsert envSeq [entS, entN]).1)) = false := by
  refine ⟨rfl, by decide, by decide⟩

/-- Claim C2 (amended): in the non-batched path, the per-entity write
calls are the reversed dependency-ordered non-search-identifier entities
followed by the reversed search-identifier entities — search-identifier
entities are placed after, not ahead of, the dependency-ordered remainder
in the call sequence. -/
theorem claim_c2_upsert_call_order (env : ApplierEnv) (entities : List Entity)
    (h : env.config.create_missing_related_entities = false) :
    (upsert env entities).1 =
      ((env.order_by_entities_dependencies
          (entities.filter (fun e => !e.is_using_search_identifier))).reverse ++
        (entities.filter (fun e => e.is_using_search_identifier)).reverse).map
        (fun e => RemoteCall.upsertOne e false) := by
  rw [upsert, if_neg (by simp [h]), upsert_loop_calls, List.reverse_append]

/-- Claim C2 witness: the amended call order evaluated on the concrete
input of the counterexample. -/
theorem claim_c2_witness :
    (upsert envSeq [entS, entN]).1 =
      ((envSeq.order_by_entities_dependencies
          ([entS, entN].filter (fun e => !e.is_using_search_identifier))).reverse ++
        ([entS, entN].filter (fun e => e.is_using_search_identifier)).reverse).map
        (fun e => RemoteCall.upsertOne e false) :=
  claim_c2_upsert_call_order envSeq [entS, entN] rfl

/-- Every call of the upsert trace carries should_raise = false. -/
theorem fault_tolerant_upsert (env : ApplierEnv) (entities : List Entity) :
    ∀ c ∈ (upsert env entities).1, fault_tolerant c = true := by
  intro c hc
  rw [upsert] at hc
  split at hc
  · simp only [List.mem_singleton] at hc
    subst hc
    rfl
  · rw [upsert_loop_calls] at hc
    simp only [List.mem_map] at hc
    obtain ⟨e, _, rfl⟩ := hc
    rfl

/-- Every call of the delete trace carries should_raise = false. -/
theorem fault_tolerant_delete (env : ApplierEnv) (entities_refs : List EntityRef) :
    ∀ c ∈ delete env entities_refs, fault_tolerant c = true := by
  intro c hc
  rw [delete] at hc
  split at hc
  · simp only [List.mem_singleton] at hc
    subst hc
    rfl
  · simp only [List.mem_map] at hc
    obtain ⟨r, _, rfl⟩ := hc
    rfl

/-- Every call of the safe-delete trace is fault tolerant. -/
theorem fault_tolerant_safe_delete (env : ApplierEnv)
    (entities_to_delete entities_to_protect : List EntityRef) :
    ∀ c ∈ safe_delete env entities_to_delete entities_to_protect,
      fault_tolerant c = true := by
  intro c hc
  rw [safe_delete] at hc
  split at hc
  · simp at hc
  · simp only [List.mem_cons] at hc
    rcases hc with rfl | hc
    · rfl
    · exact fault_tolerant_delete env _ c hc

/-- Claim C6: every remote-store call issued by apply_diff or delete_diff
has its should_raise flag off, so no individual item failure is raised to
the caller. -/
theorem claim_c6_always_fault_tolerant (env : ApplierEnv)
    (before after : List Entity) (ref_before ref_after : List EntityRef) :
    (∀ c ∈ apply_diff env before after, fault_tolerant c = true) ∧
    (∀ c ∈ delete_diff env ref_before ref_after, fault_tolerant c = true) := by
  constructor
  · intro c hc
    rw [apply_diff] at hc
    simp only [List.mem_append] at hc
    rcases hc with hc | hc
    · exact fault_tolerant_upsert env _ c hc
    · exact fault_tolerant_safe_delete env _ _ c hc
  · intro c hc
    rw [delete_diff] at hc
    split at hc
    · simp at hc
    · exact fault_tolerant_safe_delete env _ _ c hc

/-- Claim C6 witness: a concrete call of a concrete apply_diff trace is
fault tolerant. -/
theorem claim_c6_witness :
    fault_tolerant (RemoteCall.batchUpsert [entN] false) = true :=
  (claim_c6_always_fault_tolerant envBatch [] [entN] [] []).1
    (RemoteCall.batchUpsert [entN] false) (by decide)

/-- Every run of the poll loop ends by closing the consumer. -/
theorem kafka_run_snoc (events : List KafkaEvent) :
    ∃ L, kafka_run events = L ++ [KafkaAction.closeConsumer] := by
  induction events with
  | nil => exact ⟨[], rfl⟩
  | cons ev rest ih =>
    obtain ⟨L, hL⟩ := ih
    cases ev with
    | signal => exact ⟨[KafkaAction.closeConsumer], rfl⟩
    | pollNone =>
      exact ⟨KafkaAction.poll :: L, by simp only [kafka_run, hL, List.cons_append]⟩
    | pollErr =>
      exact ⟨KafkaAction.poll :: L, by simp only [kafka_run, hL, List.cons_append]⟩
    | pollMsg m ok =>
      exact ⟨KafkaAction.poll :: KafkaAction.processAttempt m ok ::
        KafkaAction.commit :: L, by simp only [kafka_run, hL, List.cons_append]⟩

/-- In every run of the poll loop, an offset commit sits right after the
processing attempt of the polled message; no commit opens the trace. -/
theorem kafka_commit_needs_attempt : ∀ (events : List KafkaEvent) (i : Nat),
    (kafka_run events)[i]? = some KafkaAction.commit →
    1 ≤ i ∧ ∃ m ok,
      (kafka_run events)[i-1]? = some (KafkaAction.processAttempt m ok) := by
  intro events
  induction events with
  | nil =>
    intro i h
    rcases i with _ | (_ | i) <;> simp [kafka_run] at h
  | cons ev rest ih =>
    cases ev with
    | signal =>
      intro i h
      rcases i with _ | (_ | (_ | i)) <;> simp [kafka_run] at h
    | pollNone =>
      intro i h
      rcases i with _ | i
      · simp [kafka_run] at h
      · simp only [kafka_run, List.getElem?_cons_succ] at h
        obtain ⟨h1, m, ok, h2⟩ := ih i h
        obtain ⟨k, rfl⟩ : ∃ k, i = k + 1 := ⟨i - 1, by omega⟩
        refine ⟨by omega, m, ok, ?_⟩
        simpa [kafka_run] using h2
    | pollErr =>
      intro i h
      rcases i with _ | i
      · simp [kafka_run] at h
      · simp only [kafka_run, List.getElem?_cons_succ] at h
        obtain ⟨h1, m, ok, h2⟩ := ih i h
        obtain ⟨k, rfl⟩ : ∃ k, i = k + 1 := ⟨i - 1, by omega⟩
        refine ⟨by omega, m, ok, ?_⟩
        simpa [kafka_run] using h2
    | pollMsg m0 ok0 =>
      intro i h
      rcases i with _ | (_ | (_ | i))
      · simp [kafka_run] at h
      · simp [kafka_run] at h
      · refine ⟨by omega, m0, ok0, ?_⟩
        simp [kafka_run]
      · simp only [kafka_run, List.getElem?_cons_succ] at h
        obtain ⟨h1, m, ok, h2⟩ := ih i h
        obtain ⟨k, rfl⟩ : ∃ k, i = k + 1 := ⟨i - 1, by omega⟩
        refine ⟨by omega, m, ok, ?_⟩
        simpa [kafka_run] using h2

/-- Claim C9: in every run of the Kafka ingestion loop, a commit occurs
only right after the processing attempt for the polled message completed
(never before any processing attempt), and the run ends with the consumer
connection being closed. -/
theorem claim_c9_commit_after_processing (events : List KafkaEvent) :
    (kafka_run events).getLast? = some KafkaAction.closeConsumer ∧
    ∀ i, (kafka_run events)[i]? = some KafkaAction.commit →
      1 ≤ i ∧ ∃ m ok,
        (kafka_run events)[i-1]? = some (KafkaAction.processAttempt m ok) := by
  constructor
  · obtain ⟨L, hL⟩ := kafka_run_snoc events
    rw [hL, List.getLast?_append_cons]
    rfl
  · exact kafka_commit_needs_attempt events

/-- Claim C9 witness: on a schedule polling one message and then receiving
a termination signal, the commit at position 2 follows the processing
attempt at position 1. -/
theorem claim_c9_witness :
    1 ≤ 2 ∧ ∃ m ok,
      (kafka_run [KafkaEvent.pollMsg 5 true, KafkaEvent.signal])[2-1]? =
        some (KafkaAction.processAttempt m ok) :=
  (claim_c9_commit_after_processing
    [KafkaEvent.pollMsg 5 true, KafkaEvent.signal]).2 2 (by decide)

end Ocean
